import Mathlib

/-!
Shallow embedding of the basic-talker voice-chat client (src/types.ts and
the main application component in src/unnamed/part_002).

The application is a single React component with these pieces of state:
  status (SessionStatus), isModelTalking, transcript, error,
  nextStartTime (playback cursor), audioSources (scheduled output buffers),
  sessionRef (remote session handle), transcriptionBuffer (per-turn text).

Event handlers mutate this state; we embed each handler as a pure function
on an explicit AppState record.  Calls the handlers make to the audio
device (source.stop()) are recorded in a stoppedLog field, so that theorems
can talk about which buffers were stopped.  The device clock
(outputCtx.currentTime) and the wall clock (Date.now()) are passed as
parameters to the handlers that read them.  Rationals stand in for the
float clock values, integers for millisecond timestamps.
-/

namespace BasicTalker

/-- SessionStatus from src/types.ts. -/
inductive SessionStatus where
  | DISCONNECTED
  | CONNECTING
  | CONNECTED
  | ERROR
deriving DecidableEq, Repr

/-- Speaker tag of a transcript entry (the type field of TranscriptionEntry,
a string union in src/types.ts). -/
inductive Speaker where
  | user
  | model
deriving DecidableEq, Repr

/-- TranscriptionEntry from src/types.ts. -/
structure TranscriptionEntry where
  type : Speaker
  text : String
  timestamp : Int
deriving DecidableEq, Repr

/-- The transcriptionBuffer ref: accumulated user and model fragments for
the current turn. -/
structure TurnBuffer where
  user : String
  model : String
deriving DecidableEq, Repr

/-- One scheduled output buffer: an AudioBufferSourceNode together with the
start time passed to source.start and the duration of its audio buffer. -/
structure ScheduledSource where
  startTime : ℚ
  duration : ℚ
deriving DecidableEq, Repr

/-- Microphone capture resources created in the onopen callback: whether the
stream tracks have been stopped and the processing nodes disconnected. -/
structure MicState where
  tracksStopped : Bool
  nodesDisconnected : Bool
deriving DecidableEq, Repr

/-- The component state: React state hooks plus the refs of part_002.
stoppedLog records every source.stop() call issued to the audio device. -/
structure AppState where
  status : SessionStatus
  isModelTalking : Bool
  transcript : List TranscriptionEntry
  error : Option String
  nextStartTime : ℚ
  audioSources : List ScheduledSource
  sessionOpen : Bool
  buffer : TurnBuffer
  mic : Option MicState
  stoppedLog : List ScheduledSource
deriving DecidableEq, Repr

/-- The serverContent field of an inbound LiveServerMessage, reduced to the
parts the onmessage handler reads.  An audio payload is abstracted to the
duration of its decoded buffer. -/
structure ServerContent where
  audio : Option ℚ
  interrupted : Bool
  inputTranscription : Option String
  outputTranscription : Option String
  turnComplete : Bool
deriving DecidableEq, Repr

/-- stopSession (part_002 lines 40-49): close the remote session handle if
present, stop every scheduled source and clear the set, set status to
DISCONNECTED and isModelTalking to false.  It does not touch
nextStartTime, the turn buffer, the error message or the microphone. -/
def stopSession (s : AppState) : AppState :=
  { s with
    sessionOpen := false
    stoppedLog := s.stoppedLog ++ s.audioSources
    audioSources := []
    status := SessionStatus.DISCONNECTED
    isModelTalking := false }

/-- Audio-payload branch of onmessage (part_002 lines 91-110): set
isModelTalking, raise the cursor to the device clock if it fell behind,
schedule the decoded buffer at the cursor, advance the cursor by the
buffer duration and add the source to the active set.  clock is
outputCtx.currentTime, dur the decoded buffer duration. -/
def enqueueAudio (s : AppState) (clock dur : ℚ) : AppState :=
  let st := max s.nextStartTime clock
  { s with
    isModelTalking := true
    nextStartTime := st + dur
    audioSources := s.audioSources ++ [⟨st, dur⟩] }

/-- Interruption branch of onmessage (part_002 lines 113-118): stop every
active source, clear the set, reset the cursor to zero, clear
isModelTalking. -/
def interruptPlayback (s : AppState) : AppState :=
  { s with
    stoppedLog := s.stoppedLog ++ s.audioSources
    audioSources := []
    nextStartTime := 0
    isModelTalking := false }

/-- Turn-complete branch of onmessage (part_002 lines 128-141): trim both
buffer fields; when at least one is non-empty append an entry for each
non-empty field, user first at timestamp now (Date.now()), model second at
now + 1; reset the buffer unconditionally.  Returns the appended entries
and the new buffer. -/
def flushTurn (buf : TurnBuffer) (now : Int) :
    List TranscriptionEntry × TurnBuffer :=
  let userText := buf.user.trim
  let modelText := buf.model.trim
  let entries :=
    if userText ≠ "" ∨ modelText ≠ "" then
      (if userText ≠ "" then [⟨Speaker.user, userText, now⟩] else []) ++
      (if modelText ≠ "" then [⟨Speaker.model, modelText, now + 1⟩] else [])
    else []
  (entries, ⟨"", ""⟩)

/-- onmessage (part_002 lines 89-142): handle, in order, an audio payload,
an interruption, an input-transcription fragment, an output-transcription
fragment, and a turn-complete signal.  clock is outputCtx.currentTime and
now is Date.now() at the time the handler runs. -/
def onmessage (s : AppState) (clock : ℚ) (now : Int)
    (msg : ServerContent) : AppState :=
  let s1 := match msg.audio with
    | some dur => enqueueAudio s clock dur
    | none => s
  let s2 := if msg.interrupted then interruptPlayback s1 else s1
  let s3 := match msg.inputTranscription with
    | some t => { s2 with buffer := { s2.buffer with user := s2.buffer.user ++ t } }
    | none => s2
  let s4 := match msg.outputTranscription with
    | some t => { s3 with buffer := { s3.buffer with model := s3.buffer.model ++ t } }
    | none => s3
  if msg.turnComplete then
    let fl := flushTurn s4.buffer now
    { s4 with transcript := s4.transcript ++ fl.1, buffer := fl.2 }
  else s4

/-- The synchronous prefix of startSession (part_002 lines 52-54): set
status to CONNECTING and clear the error message.  This runs
unconditionally; startSession performs no check of the current status. -/
def startBegin (s : AppState) : AppState :=
  { s with status := SessionStatus.CONNECTING, error := none }

/-- onopen callback (part_002 lines 63-88): set status to CONNECTED and
start microphone capture (stream source and script processor connected,
tracks live); the cleanup closure is registered but not run. -/
def onOpen (s : AppState) : AppState :=
  { s with
    status := SessionStatus.CONNECTED
    mic := some ⟨false, false⟩ }

/-- The awaited step of startSession at which an error is thrown:
initAudio resume, getUserMedia (permission denial), or ai.live.connect
(connection failure). -/
inductive FailPoint where
  | initAudio
  | getUserMedia
  | connect
deriving DecidableEq, Repr

/-- Outcome of one startSession call: either some awaited step threw with
message m, or the connection opened (onopen fired, the session promise
resolved). -/
inductive StartOutcome where
  | failAt (p : FailPoint) (m : String)
  | opened
deriving DecidableEq, Repr

/-- The user-visible message recorded by the catch block of startSession
(part_002 line 166): err.message, or the fallback when it is empty. -/
def errMessage (m : String) : String :=
  if m = "" then "Could not access microphone or start AI session." else m

/-- startSession (part_002 lines 51-169): set CONNECTING and clear the
error, then either the catch block records the error message and forces
DISCONNECTED, or onopen fires and the resolved session handle is stored. -/
def startSession (s : AppState) (o : StartOutcome) : AppState :=
  match o with
  | StartOutcome.failAt _ m =>
      { startBegin s with
        status := SessionStatus.DISCONNECTED
        error := some (errMessage m) }
  | StartOutcome.opened =>
      { onOpen (startBegin s) with sessionOpen := true }

/-- onerror callback (part_002 lines 143-147): record a fixed error
message, then stopSession. -/
def onRemoteError (s : AppState) : AppState :=
  stopSession { s with error := some "A connection error occurred. Please try again." }

/-- onclose callback (part_002 lines 148-150): set status DISCONNECTED. -/
def onClose (s : AppState) : AppState :=
  { s with status := SessionStatus.DISCONNECTED }

/-- The window._audioCleanup closure (part_002 lines 83-87): disconnect the
capture nodes and stop the stream tracks.  A no-op when capture never
started (the closure was never registered). -/
def audioCleanup (s : AppState) : AppState :=
  match s.mic with
  | some _ => { s with mic := some ⟨true, true⟩ }
  | none => s

/-- True when no live microphone resource remains: either capture never
started or the tracks are stopped and the nodes disconnected. -/
def micReleased (s : AppState) : Bool :=
  match s.mic with
  | some m => m.tracksStopped && m.nodesDisconnected
  | none => true

/-- An externally triggered event of the component, with the clock values
the corresponding handler reads. -/
inductive Event where
  | start (o : StartOutcome)
  | message (clock : ℚ) (now : Int) (msg : ServerContent)
  | remoteError
  | remoteClose
  | stop
  | unmount
deriving DecidableEq, Repr

/-- Dispatch one event to its handler.  unmount (part_002 lines 172-177)
runs stopSession and then the registered audio cleanup. -/
def step (s : AppState) : Event → AppState
  | Event.start o => startSession s o
  | Event.message clock now msg => onmessage s clock now msg
  | Event.remoteError => onRemoteError s
  | Event.remoteClose => onClose s
  | Event.stop => stopSession s
  | Event.unmount => audioCleanup (stopSession s)

/-- The initial component state (part_002 lines 9-22). -/
def initState : AppState :=
  { status := SessionStatus.DISCONNECTED
    isModelTalking := false
    transcript := []
    error := none
    nextStartTime := 0
    audioSources := []
    sessionOpen := false
    buffer := ⟨"", ""⟩
    mic := none
    stoppedLog := [] }

/-- Run the component from its initial state over a list of events. -/
def run (es : List Event) : AppState :=
  es.foldl step initState

/-- Modelled from the spec: src/utils/audioUtils.ts (the PCM Codec with
decode, decodeAudioData and createPcmBlob) is imported by part_002 but is
not among the source files, so the codec is taken from the words of the
spec.  Truncation toward zero of a rational, the conversion JavaScript
applies when a float is stored into an Int16Array. -/
def ratTrunc (q : ℚ) : Int :=
  if 0 ≤ q then ⌊q⌋ else ⌈q⌉

/-- Modelled from the spec: encode maps one float sample to a 16-bit signed
integer by scaling by 32767 and clamping to the signed 16-bit range. -/
def encodeSample (x : ℚ) : Int :=
  max (-32768) (min 32767 (ratTrunc (x * 32767)))

/-- Modelled from the spec: little-endian serialization of one 16-bit
signed integer as two bytes (two's complement). -/
def sampleToBytes (i : Int) : List ℕ :=
  let u := (i % 65536).toNat
  [u % 256, u / 256]

/-- Modelled from the spec: encode a sample sequence to a byte sequence,
two little-endian bytes per sample. -/
def encode (xs : List ℚ) : List ℕ :=
  (xs.map (fun x => sampleToBytes (encodeSample x))).flatten

/-- Modelled from the spec: read one little-endian byte pair back as a
signed 16-bit integer. -/
def bytesToInt (lo hi : ℕ) : Int :=
  let u := lo + 256 * hi
  if u < 32768 then (u : Int) else (u : Int) - 65536

/-- Modelled from the spec: group a byte sequence into 16-bit samples,
truncating a trailing partial sample. -/
def decodePairs : List ℕ → List Int
  | lo :: hi :: rest => bytesToInt lo hi :: decodePairs rest
  | _ => []

/-- Modelled from the spec: decode divides each 16-bit value by 32768. -/
def decodeBytes (bs : List ℕ) : List ℚ :=
  (decodePairs bs).map (fun (i : Int) => (i : ℚ) / 32768)

/-- Round trip of the spec-modelled codec: decode after encode. -/
def roundTrip (xs : List ℚ) : List ℚ :=
  decodeBytes (encode xs)

/-- The state right after a successful start: CONNECTED, session handle
stored, microphone capture running. -/
def connectedState : AppState :=
  startSession initState StartOutcome.opened

/-- A message carrying only an interruption signal. -/
def interruptMsg : ServerContent :=
  ⟨none, true, none, none, false⟩

/-- A message carrying only a turn-complete signal. -/
def turnCompleteMsg : ServerContent :=
  ⟨none, false, none, none, true⟩

/-- C1: on a turn-complete signal the flush trims both Turn Buffer fields,
appends one entry per non-empty field (user first at the flush timestamp,
model second one unit later), appends nothing for an empty field, and
resets the buffer unconditionally; the onmessage handler appends exactly
these entries to the transcript.  Both Date.now() reads of the handler are
modelled as the single instant now at which the handler runs. -/
theorem flushTurn_turnComplete_spec (buf : TurnBuffer) (now : Int)
    (s : AppState) (clock : ℚ) :
    (flushTurn buf now).2 = TurnBuffer.mk "" "" ∧
    (flushTurn buf now).1 =
      (if buf.user.trim = "" then []
       else [⟨Speaker.user, buf.user.trim, now⟩]) ++
      (if buf.model.trim = "" then []
       else [⟨Speaker.model, buf.model.trim, now + 1⟩]) ∧
    onmessage s clock now turnCompleteMsg =
      { s with
        transcript := s.transcript ++ (flushTurn s.buffer now).1
        buffer := TurnBuffer.mk "" "" } := by
  refine ⟨rfl, ?_, ?_⟩
  · by_cases hu : buf.user.trim = "" <;> by_cases hm : buf.model.trim = "" <;>
      simp [flushTurn, hu, hm]
  · simp [onmessage, turnCompleteMsg, flushTurn]

/-- C5 counterexample: calling start() while CONNECTED does not leave the
state unchanged and raises no error; it moves the status to CONNECTING. -/
theorem start_while_connected_cex :
    connectedState.status = SessionStatus.CONNECTED ∧
    (startBegin connectedState).status = SessionStatus.CONNECTING ∧
    startBegin connectedState ≠ connectedState := by
  refine ⟨rfl, rfl, fun h => ?_⟩
  exact absurd (congrArg AppState.status h) (by decide)

/-- C5 amended: startSession performs no already-active check; from any
state, including Connecting and Connected, it immediately sets the status
to CONNECTING and clears the error message, then proceeds with the normal
start flow (CONNECTED with capture running on success). -/
theorem start_no_guard_amended (s : AppState) :
    startBegin s = { s with status := SessionStatus.CONNECTING, error := none } ∧
    startSession s StartOutcome.opened =
      { s with
        status := SessionStatus.CONNECTED
        error := none
        mic := some ⟨false, false⟩
        sessionOpen := true } := by
  exact ⟨rfl, rfl⟩

/-- C6: every error thrown during startSession, at whichever awaited step
(audio-context setup, microphone permission, remote connect), is caught by
the single catch block, which records a non-empty user-visible message and
forces the status to DISCONNECTED, leaving every other field of the state
untouched. -/
theorem start_failure_records_error (s : AppState) (p : FailPoint) (m : String) :
    startSession s (StartOutcome.failAt p m) =
      { s with
        status := SessionStatus.DISCONNECTED
        error := some (errMessage m) } ∧
    errMessage m ≠ "" := by
  refine ⟨rfl, ?_⟩
  by_cases h : m = "" <;> simp [errMessage, h]

/-- C7: stopSession is idempotent and total; it always ends with status
DISCONNECTED, the session handle released, the active buffer set empty
after stopping every active source, and on an already-stopped idle state
it changes nothing. -/
theorem stop_idempotent_safe (s : AppState) :
    stopSession (stopSession s) = stopSession s ∧
    (stopSession s).status = SessionStatus.DISCONNECTED ∧
    (stopSession s).sessionOpen = false ∧
    (stopSession s).audioSources = [] ∧
    (stopSession s).isModelTalking = false ∧
    (stopSession s).stoppedLog = s.stoppedLog ++ s.audioSources ∧
    (s.status = SessionStatus.DISCONNECTED ∧ s.sessionOpen = false ∧
      s.audioSources = [] ∧ s.isModelTalking = false → stopSession s = s) := by
  refine ⟨?_, rfl, rfl, rfl, rfl, rfl, ?_⟩
  · simp [stopSession]
  · rintro ⟨h1, h2, h3, h4⟩
    rcases s with ⟨st, imt, tr, er, nst, asrc, so, bf, mic, log⟩
    simp only at h1 h2 h3 h4
    simp [stopSession, h1, h2, h3, h4]

/-- C7 witness: stopping the initial (already disconnected, idle) state is
a no-op and repeating it changes nothing. -/
theorem stop_idempotent_witness :
    stopSession (stopSession initState) = stopSession initState ∧
    stopSession initState = initState :=
  ⟨(stop_idempotent_safe initState).1,
   (stop_idempotent_safe initState).2.2.2.2.2.2 ⟨rfl, rfl, rfl, rfl⟩⟩

/-- C8 counterexample: at the connected state the microphone capture is
live, and after stopSession returns it still is; the tracks are not
stopped and the nodes are not disconnected. -/
theorem stop_leaves_mic_cex :
    connectedState.mic = some ⟨false, false⟩ ∧
    (stopSession connectedState).mic = some ⟨false, false⟩ ∧
    micReleased (stopSession connectedState) = false := by
  exact ⟨rfl, rfl, rfl⟩

/-- C8 amended: stopSession leaves the microphone capture resources
untouched; they are released only by the separately registered cleanup
closure, which the unmount teardown runs after stopSession, stopping the
stream tracks and disconnecting the capture nodes. -/
theorem mic_release_on_unmount_amended (s : AppState) :
    (stopSession s).mic = s.mic ∧
    micReleased (step s Event.unmount) = true ∧
    audioCleanup connectedState =
      { connectedState with mic := some ⟨true, true⟩ } := by
  refine ⟨rfl, ?_, rfl⟩
  cases h : s.mic <;> simp [step, stopSession, audioCleanup, micReleased, h]

/-- C2: each enqueue schedules the buffer at max(cursor, device clock),
adds it to the active set and advances the cursor by the buffer duration;
hence three buffers enqueued while the clock stays behind the cursor are
scheduled back to back at t0, t0 + d1, t0 + d1 + d2, with t0 the clock at
the first enqueue. -/
theorem enqueue_gapless_spec (s : AppState) (c d : ℚ) :
    enqueueAudio s c d =
      { s with
        isModelTalking := true
        nextStartTime := max s.nextStartTime c + d
        audioSources := s.audioSources ++ [⟨max s.nextStartTime c, d⟩] } ∧
    (∀ t0 d1 d2 d3 c2 c3 : ℚ,
      s.nextStartTime ≤ t0 → c2 ≤ t0 + d1 → c3 ≤ t0 + d1 + d2 →
      (enqueueAudio (enqueueAudio (enqueueAudio s t0 d1) c2 d2) c3 d3).audioSources =
        s.audioSources ++ [⟨t0, d1⟩, ⟨t0 + d1, d2⟩, ⟨t0 + d1 + d2, d3⟩]) := by
  refine ⟨rfl, ?_⟩
  intro t0 d1 d2 d3 c2 c3 h1 h2 h3
  simp [enqueueAudio, max_eq_right h1, max_eq_left h2, max_eq_left h3]

/-- C2 witness: from the initial state with the clock at 1, buffers of
durations 2, 3, 4 enqueued while the clock stays behind the cursor are
scheduled at 1, 3 and 6. -/
theorem enqueue_gapless_witness :
    (enqueueAudio (enqueueAudio (enqueueAudio initState 1 2) 1 3) 0 4).audioSources =
      [⟨1, 2⟩, ⟨3, 3⟩, ⟨6, 4⟩] := by
  have h := (enqueue_gapless_spec initState 0 0).2 1 2 3 4 1 0
    (by decide) (by norm_num) (by norm_num)
  norm_num [initState] at h
  exact h

/-- C3: the interruption handler stops every active source (they are all
appended to the device stop log), clears the set, resets the cursor to
zero and clears the speaking flag, from any state including one with no
active sources; the next enqueue after it schedules at the device clock. -/
theorem interrupt_clears_and_resets (s : AppState) (c d : ℚ) (hc : 0 ≤ c) :
    interruptPlayback s =
      { s with
        stoppedLog := s.stoppedLog ++ s.audioSources
        audioSources := []
        nextStartTime := 0
        isModelTalking := false } ∧
    (enqueueAudio (interruptPlayback s) c d).audioSources = [⟨c, d⟩] := by
  refine ⟨rfl, ?_⟩
  simp [enqueueAudio, interruptPlayback, max_eq_right hc]

/-- C3 witness: interrupting the connected state and then enqueuing with
the clock at 7 schedules exactly at 7. -/
theorem interrupt_then_enqueue_witness :
    (enqueueAudio (interruptPlayback connectedState) 7 2).audioSources =
      [⟨7, 2⟩] :=
  (interrupt_clears_and_resets connectedState 7 2 (by decide)).2

/-- C4 counterexample: an interruption arriving while the output device
clock reads 1 resets the cursor to 0, not to the clock value 1; and
stopSession does not reset the cursor at all (a cursor of 5 survives it). -/
theorem cursor_reset_not_clock_cex :
    (onmessage (enqueueAudio connectedState 1 2) 1 0 interruptMsg).nextStartTime = 0 ∧
    (0 : ℚ) ≠ 1 ∧
    (stopSession { connectedState with nextStartTime := 5 }).nextStartTime = 5 ∧
    (5 : ℚ) ≠ 0 := by
  exact ⟨rfl, by decide, rfl, by decide⟩

/-- C4 amended: the cursor never decreases on an enqueue (for buffers of
nonnegative duration), is left unchanged by stopSession, and is reset to
zero by an interruption; right after that reset the next enqueue schedules
at the device clock, since the schedule time is max(0, clock) = clock. -/
theorem cursor_monotone_amended (s : AppState) (c d : ℚ) (hd : 0 ≤ d) :
    s.nextStartTime ≤ (enqueueAudio s c d).nextStartTime ∧
    (stopSession s).nextStartTime = s.nextStartTime ∧
    (interruptPlayback s).nextStartTime = 0 ∧
    (0 ≤ c →
      (enqueueAudio (interruptPlayback s) c d).audioSources = [⟨c, d⟩]) := by
  refine ⟨?_, rfl, rfl, ?_⟩
  · have h1 : s.nextStartTime ≤ max s.nextStartTime c := le_max_left _ _
    have h2 : max s.nextStartTime c ≤ max s.nextStartTime c + d :=
      le_add_of_nonneg_right hd
    simpa [enqueueAudio] using h1.trans h2
  · intro hc
    simp [enqueueAudio, interruptPlayback, max_eq_right hc]

/-- C4 witness: at the initial state, an enqueue with the clock at 3 and
duration 2 does not decrease the cursor, and an enqueue right after an
interruption schedules at the clock value 3. -/
theorem cursor_monotone_witness :
    initState.nextStartTime ≤ (enqueueAudio initState 3 2).nextStartTime ∧
    (enqueueAudio (interruptPlayback initState) 3 2).audioSources = [⟨3, 2⟩] :=
  ⟨(cursor_monotone_amended initState 3 2 (by decide)).1,
   (cursor_monotone_amended initState 3 2 (by decide)).2.2.2 (by decide)⟩

/-- Any single event leaves the status different from ERROR when it was
different from ERROR before; no handler ever assigns ERROR. -/
theorem step_status_ne_error (s : AppState) (e : Event)
    (h : s.status ≠ SessionStatus.ERROR) :
    (step s e).status ≠ SessionStatus.ERROR := by
  cases e with
  | start o =>
      cases o <;> simp [step, startSession, startBegin, onOpen]
  | message clock now msg =>
      rcases msg with ⟨a, i, it, ot, tc⟩
      cases a <;> cases i <;> cases it <;> cases ot <;> cases tc <;>
        simpa [onmessage, step, enqueueAudio, interruptPlayback, flushTurn] using h
  | remoteError => simp [step, onRemoteError, stopSession]
  | remoteClose => simp [step, onClose]
  | stop => simp [step, stopSession]
  | unmount =>
      cases hm : s.mic <;>
        simp [step, audioCleanup, stopSession, hm]

/-- C10: over every event sequence from the initial state, the status is
never ERROR; the ERROR member of SessionStatus is never assigned, error
paths ending in DISCONNECTED with the message in the error field. -/
theorem status_never_error (es : List Event) :
    (run es).status ≠ SessionStatus.ERROR := by
  have key : ∀ (l : List Event) (s : AppState),
      s.status ≠ SessionStatus.ERROR →
      (l.foldl step s).status ≠ SessionStatus.ERROR := by
    intro l
    induction l with
    | nil => intro s h; exact h
    | cons e tl ih =>
        intro s h
        exact ih (step s e) (step_status_ne_error s e h)
  exact key es initState (by decide)

/-- Truncation toward zero moves a rational by at most one. -/
theorem ratTrunc_sub_le (q : ℚ) : |(ratTrunc q : ℚ) - q| ≤ 1 := by
  unfold ratTrunc
  split
  · have h1 : (⌊q⌋ : ℚ) ≤ q := Int.floor_le q
    have h2 : q - 1 < (⌊q⌋ : ℚ) := Int.sub_one_lt_floor q
    rw [abs_le]
    constructor <;> linarith
  · have h1 : q ≤ (⌈q⌉ : ℚ) := Int.le_ceil q
    have h2 : (⌈q⌉ : ℚ) < q + 1 := Int.ceil_lt_add_one q
    rw [abs_le]
    constructor <;> linarith

/-- Truncation of a rational within the 16-bit sample range stays within
the signed 16-bit range. -/
theorem ratTrunc_bounds (q : ℚ) (h : |q| ≤ 32767) :
    -32768 ≤ ratTrunc q ∧ ratTrunc q ≤ 32767 := by
  rw [abs_le] at h
  unfold ratTrunc
  split
  case isTrue h0 =>
    refine ⟨le_trans (by norm_num) (Int.floor_nonneg.mpr h0), ?_⟩
    have hle : (⌊q⌋ : ℚ) ≤ 32767 := le_trans (Int.floor_le q) h.2
    exact_mod_cast hle
  case isFalse h0 =>
    push_neg at h0
    constructor
    · have hle : (-32768 : ℚ) ≤ (⌈q⌉ : ℚ) :=
        le_trans (by linarith [h.1]) (Int.le_ceil q)
      exact_mod_cast hle
    · have hle : (⌈q⌉ : ℚ) < q + 1 := Int.ceil_lt_add_one q
      have : (⌈q⌉ : ℚ) ≤ 32767 := by linarith [h0.le]
      exact_mod_cast this

/-- For a sample within the unit range, the clamp of encodeSample is a
no-op and the encoded value is the bare truncation of the scaled sample. -/
theorem encodeSample_eq (x : ℚ) (hx : |x| ≤ 1) :
    encodeSample x = ratTrunc (x * 32767) := by
  have hq : |x * 32767| ≤ 32767 := by
    rw [abs_mul]
    have := mul_le_mul_of_nonneg_right hx (by norm_num : (0 : ℚ) ≤ |32767|)
    simpa using this
  obtain ⟨b1, b2⟩ := ratTrunc_bounds _ hq
  unfold encodeSample
  rw [min_eq_right b2, max_eq_right b1]

/-- The clamp keeps every encoded sample within the signed 16-bit range,
whatever the input. -/
theorem encodeSample_range (x : ℚ) :
    -32768 ≤ encodeSample x ∧ encodeSample x ≤ 32767 := by
  unfold encodeSample
  exact ⟨le_max_left _ _, max_le (by norm_num) (min_le_left _ _)⟩

/-- Per-sample round-trip error of the spec-modelled codec: dividing the
encoded integer by 32768 returns to within 1/16384 of a unit-range
sample. -/
theorem encodeSample_close (x : ℚ) (hx : |x| ≤ 1) :
    |((encodeSample x : ℚ)) / 32768 - x| ≤ 1 / 16384 := by
  rw [encodeSample_eq x hx]
  have h1 := ratTrunc_sub_le (x * 32767)
  rw [abs_le] at h1 hx ⊢
  constructor <;> linarith [h1.1, h1.2, hx.1, hx.2]

/-- Unfolding equation of decodePairs on two leading bytes. -/
theorem decodePairs_cons (lo hi : ℕ) (rest : List ℕ) :
    decodePairs (lo :: hi :: rest) = bytesToInt lo hi :: decodePairs rest :=
  rfl

/-- Little-endian two's-complement serialization round-trips every value
of the signed 16-bit range. -/
theorem decodePairs_sampleToBytes (i : Int) (h1 : -32768 ≤ i)
    (h2 : i ≤ 32767) (rest : List ℕ) :
    decodePairs (sampleToBytes i ++ rest) = i :: decodePairs rest := by
  have hnonneg : 0 ≤ i % 65536 := Int.emod_nonneg i (by norm_num)
  have hlt : i % 65536 < 65536 := Int.emod_lt_of_pos i (by norm_num)
  unfold sampleToBytes
  rw [List.cons_append, List.cons_append, List.nil_append, decodePairs_cons]
  congr 1
  unfold bytesToInt
  set u := (i % 65536).toNat with hu
  have hcast : (u : Int) = i % 65536 := Int.toNat_of_nonneg hnonneg
  have hu1 : u % 256 + 256 * (u / 256) = u := Nat.mod_add_div u 256
  simp only [hu1]
  split <;> omega

/-- The byte stage cancels: the round trip equals the per-sample
encode-then-divide map. -/
theorem roundTrip_map (xs : List ℚ) :
    roundTrip xs = xs.map (fun x => ((encodeSample x : ℚ)) / 32768) := by
  induction xs with
  | nil => rfl
  | cons x tl ih =>
      have hr := encodeSample_range x
      unfold roundTrip decodeBytes encode at ih ⊢
      rw [List.map_cons, List.flatten_cons, decodePairs_sampleToBytes _ hr.1 hr.2,
        List.map_cons, List.map_cons, ih]

/-- C9 counterexample: the sample 65535/65536 lies in the unit range, yet
its round-trip error is 3/65536, which exceeds one quantization step
1/32767; the mismatch between the encode scale 32767 and the decode
divisor 32768 makes the stated bound fail near full scale. -/
theorem codec_roundtrip_bound_cex :
    (∀ x ∈ [(65535 : ℚ) / 65536], -1 ≤ x ∧ x ≤ 1) ∧
    ¬ |(roundTrip [(65535 : ℚ) / 65536]).getD 0 0 -
        ([(65535 : ℚ) / 65536]).getD 0 0| ≤ 1 / 32767 := by
  constructor
  · intro x hx
    rw [List.mem_singleton] at hx
    subst hx
    constructor <;> norm_num
  · have he : encodeSample ((65535 : ℚ) / 65536) = 32766 := by
      rw [encodeSample_eq _ (by rw [abs_le]; constructor <;> norm_num)]
      unfold ratTrunc
      rw [if_pos (by positivity)]
      norm_num
    rw [roundTrip_map, List.map_singleton, he]
    norm_num [abs_le]

/-- C9 amended: decode after encode preserves the list length and returns
to within 1/16384 (two decode quantization steps) of every unit-range
sample; the error can exceed 1/32767 near full scale, because encode
scales by 32767 while decode divides by 32768. -/
theorem codec_roundtrip_amended (xs : List ℚ) (h : ∀ x ∈ xs, |x| ≤ 1)
    (i : ℕ) :
    (roundTrip xs).length = xs.length ∧
    |(roundTrip xs).getD i 0 - xs.getD i 0| ≤ 1 / 16384 := by
  rw [roundTrip_map]
  refine ⟨by simp, ?_⟩
  by_cases hi : i < xs.length
  · rw [List.getD_eq_getElem _ _ (by simpa using hi),
      List.getD_eq_getElem _ _ hi, List.getElem_map]
    exact encodeSample_close _ (h _ (List.getElem_mem hi))
  · rw [List.getD_eq_default _ _ (by simpa using Nat.le_of_not_lt hi),
      List.getD_eq_default _ _ (Nat.le_of_not_lt hi)]
    norm_num

/-- C9 witness: the unit-range sample 1/2 round-trips to within 1/16384. -/
theorem codec_roundtrip_witness :
    (∀ x ∈ [(1 : ℚ) / 2], |x| ≤ 1) ∧
    |(roundTrip [(1 : ℚ) / 2]).getD 0 0 - ([(1 : ℚ) / 2]).getD 0 0| ≤ 1 / 16384 := by
  have hmem : ∀ x ∈ [(1 : ℚ) / 2], |x| ≤ 1 := by
    intro x hx
    rw [List.mem_singleton] at hx
    subst hx
    rw [abs_le]
    constructor <;> norm_num
  exact ⟨hmem, (codec_roundtrip_amended [(1 : ℚ) / 2] hmem 0).2⟩

end BasicTalker
